import Mathlib

/-!
Verification of the conversation-orchestration core of the `jane` voice
assistant: the context manager (`src/backend/context_manager.py`), the
streaming sentence splitter (`src/utils/sentence_splitter.py`), the
function registry (`src/backend/function_handler.py`) and the response
orchestration loop (`src/backend/assistant_core.py`), shallowly embedded
as executable Lean definitions.  Python strings are modelled as `List Char`
or `String`, dictionaries as structures or association lists, exceptions as
`Except`, and the LLM / TTS collaborators as explicit function parameters.
-/

namespace Jane

/-- ASCII whitespace, the characters relevant to the Python `\s` class,
`str.strip()` and `str.split()` on the texts handled here. -/
def isPySpace (c : Char) : Bool :=
  c == ' ' || c == '\t' || c == '\n' || c == '\r' || c == '\x0b' || c == '\x0c'

/-- The sentence-ending punctuation class `[.!?]` of `SENTENCE_ENDINGS`. -/
def isPunct (c : Char) : Bool :=
  c == '.' || c == '!' || c == '?'

/-- `str.strip()`: drop leading and trailing whitespace. -/
def pyStrip (l : List Char) : List Char :=
  ((l.dropWhile isPySpace).reverse.dropWhile isPySpace).reverse

/-- The non-whitespace characters of a string, in order. -/
def nonWs (l : List Char) : List Char :=
  l.filter (fun c => !isPySpace c)

/-- Helper for `pyWords`: accumulates the current (reversed) word. -/
def pyWordsAux : List Char → List Char → List (List Char)
  | cur, [] => if cur.isEmpty then [] else [cur.reverse]
  | cur, c :: rest =>
    if isPySpace c then
      if cur.isEmpty then pyWordsAux [] rest
      else cur.reverse :: pyWordsAux [] rest
    else pyWordsAux (c :: cur) rest

/-- `str.split()` with no separator: the whitespace-separated words. -/
def pyWords (l : List Char) : List (List Char) :=
  pyWordsAux [] l

/-- Length of the maximal prefix of `l` whose characters satisfy `p`. -/
def runLen (p : Char → Bool) : List Char → Nat
  | [] => 0
  | c :: rest => if p c then runLen p rest + 1 else 0

/-- `needle in hay` for Python strings: substring containment. -/
def containsSub : List Char → List Char → Bool
  | needle, [] => needle.isEmpty
  | needle, c :: rest => needle.isPrefixOf (c :: rest) || containsSub needle rest

/-- A conversation message: the dict
`{role, content, tool_call_id?, name?, important?}` of the data model. -/
structure Msg where
  role : String
  content : String
  tool_call_id : Option String := none
  name : Option String := none
  important : Bool := false
deriving DecidableEq, Repr

/-- The scalar state of `ContextManager.__init__` (the summarize callback is
passed separately, as it is a function value). -/
structure ContextManager where
  max_messages : Nat := 20
  summarize_threshold : Nat := 30
deriving DecidableEq, Repr

/-- `ContextManager.is_important`: system role, or content containing
"function" or "result" case-insensitively, or an explicit marker. -/
def is_important (m : Msg) : Bool :=
  if m.role == "system" then true
  else if containsSub "function".data (m.content.data.map Char.toLower)
       || containsSub "result".data (m.content.data.map Char.toLower) then true
  else m.important

/-- Python slice `l[i:]` for an arbitrary integer index `i` (the source
slices with `-min(len, slots // 2)`, which can be zero or positive). -/
def pySliceFrom (l : List Msg) (i : Int) : List Msg :=
  if 0 ≤ i then l.drop i.toNat
  else l.drop (max ((l.length : Int) + i) 0).toNat

/-- Role test used by the pruning partition. -/
def pSysB (m : Msg) : Bool := m.role == "system"

/-- Partition test for the non-system important messages. -/
def pImpB (m : Msg) : Bool := m.role != "system" && is_important m

/-- Partition test for the regular (non-system, non-important) messages. -/
def pRegB (m : Msg) : Bool := m.role != "system" && !is_important m

/-- `ContextManager.prune_context`, translated clause by clause: no-op under
the budget; otherwise system messages first, then the slice
`important[-min(len(important), remaining_slots // 2):]`, then the most
recent regular messages filling the remaining slots. -/
def prune_context (cm : ContextManager) (messages : List Msg)
    (keep_system : Bool) (keep_important : Bool) : List Msg :=
  if messages.length ≤ cm.max_messages then messages
  else
    let system_messages := messages.filter pSysB
    let important_messages := messages.filter pImpB
    let regular_messages := messages.filter pRegB
    let pruned0 : List Msg := if keep_system then system_messages else []
    let remaining_slots0 : Int := (cm.max_messages : Int) - (pruned0.length : Int)
    let keep_count : Int :=
      min (important_messages.length : Int) (Int.fdiv remaining_slots0 2)
    let important_to_keep : List Msg :=
      if keep_important && !important_messages.isEmpty then
        pySliceFrom important_messages (-keep_count)
      else []
    let pruned1 := pruned0 ++ important_to_keep
    let remaining_slots1 : Int := remaining_slots0 - (important_to_keep.length : Int)
    if !regular_messages.isEmpty && 0 < remaining_slots1 then
      pruned1 ++ pySliceFrom regular_messages (-remaining_slots1)
    else pruned1

/-- `ContextManager.summarize_context`: `None` without a callback or on fewer
than two messages; a raising callback (`Except.error`) is caught and
yields `None`. -/
def summarize_context (_cm : ContextManager)
    (scb : Option (List Msg → Except String String))
    (messages : List Msg) : Option String :=
  match scb with
  | none => none
  | some callback =>
    if messages.length < 2 then none
    else
      match callback messages with
      | .ok summary => some summary
      | .error _ => none

/-- `ContextManager.manage_context`: no-op under budget; summarize the old
prefix when over the threshold and a callback exists (an empty or failed
summary falls through, Python truthiness); otherwise plain pruning. -/
def manage_context (cm : ContextManager)
    (scb : Option (List Msg → Except String String))
    (messages : List Msg) (add_summary : Bool) : List Msg :=
  if messages.length ≤ cm.max_messages then messages
  else
    let should_summarize :=
      decide (cm.summarize_threshold ≤ messages.length) && add_summary
    if should_summarize && scb.isSome then
      let system_msg := messages.filter pSysB
      let old_messages := messages.take (messages.length - cm.max_messages / 2)
      let recent_messages := messages.drop (messages.length - cm.max_messages / 2)
      match summarize_context cm scb old_messages with
      | some summary =>
        if summary.isEmpty then prune_context cm messages true true
        else
          let summary_message : Msg :=
            { role := "system", content := "Previous conversation summary: " ++ summary }
          let managed := system_msg ++ [summary_message] ++ recent_messages
          if cm.max_messages < managed.length then prune_context cm managed true true
          else managed
      | none => prune_context cm messages true true
    else prune_context cm messages true true

/-- The `ABBREVIATIONS` set of `SentenceSplitter`. -/
def ABBREVIATIONS : List (List Char) :=
  ["mr.".data, "mrs.".data, "ms.".data, "dr.".data, "prof.".data, "sr.".data, "jr.".data,
   "vs.".data, "etc.".data, "e.g.".data, "i.e.".data, "a.m.".data, "p.m.".data,
   "inc.".data, "ltd.".data, "corp.".data, "st.".data, "ave.".data, "blvd.".data]

/-- The character class of `rstrip('.,!?;:')` in `_is_complete_sentence`. -/
def isTrailPunct (c : Char) : Bool :=
  c == '.' || c == ',' || c == '!' || c == '?' || c == ';' || c == ':'

/-- `word.rstrip('.,!?;:')`: drop trailing characters of that class. -/
def rstripTrail (w : List Char) : List Char :=
  (w.reverse.dropWhile isTrailPunct).reverse

/-- `SentenceSplitter` state: the minimum sentence length and the buffer. -/
structure SentenceSplitter where
  min_sentence_length : Nat := 10
  buffer : List Char := []
deriving DecidableEq, Repr

/-- `SentenceSplitter._is_complete_sentence`: long enough, and the last word
of the lowercased text, with trailing punctuation stripped, is not in the
abbreviation set. -/
def is_complete_sentence (min_sentence_length : Nat) (text : List Char) : Bool :=
  if text.length < min_sentence_length then false
  else
    let words := pyWords (text.map Char.toLower)
    match words.getLast? with
    | some last_word => !(ABBREVIATIONS.contains (rstripTrail last_word))
    | none => true

/-- Scan for `SENTENCE_ENDINGS.finditer` matches (a `[.!?]+` run followed by
a `\s+` run) from the current suffix `s` at absolute position `pos` in
`buffer`, returning the end of the first match accepted by
`_is_complete_sentence` on the stripped prefix; rejected matches are skipped
non-overlappingly, as `finditer` does.  The fuel argument only drives the
recursion; `buffer.length + 1` always suffices as every step consumes at
least one character. -/
def scanAux (min_len : Nat) (buffer : List Char) : Nat → List Char → Nat → Option Nat
  | 0, _, _ => none
  | _ + 1, [], _ => none
  | fuel + 1, c :: rest, pos =>
    if isPunct c then
      let pn := runLen isPunct (c :: rest)
      let wn := runLen isPySpace ((c :: rest).drop pn)
      if 0 < wn then
        let end_pos := pos + pn + wn
        if is_complete_sentence min_len (pyStrip (buffer.take end_pos)) then some end_pos
        else scanAux min_len buffer fuel ((c :: rest).drop (pn + wn)) end_pos
      else scanAux min_len buffer fuel rest (pos + 1)
    else scanAux min_len buffer fuel rest (pos + 1)

/-- End position of the first accepted sentence boundary in `buffer`. -/
def findBoundary (min_len : Nat) (buffer : List Char) : Option Nat :=
  scanAux min_len buffer (buffer.length + 1) buffer 0

/-- `SentenceSplitter.add_text`: append to the buffer, emit the stripped
prefix up to the first accepted boundary (at most one sentence per call)
and keep the rest buffered. -/
def add_text (sp : SentenceSplitter) (text : List Char) :
    List (List Char) × SentenceSplitter :=
  match findBoundary sp.min_sentence_length (sp.buffer ++ text) with
  | some end_pos =>
    ([pyStrip ((sp.buffer ++ text).take end_pos)],
      { sp with buffer := (sp.buffer ++ text).drop end_pos })
  | none => ([], { sp with buffer := sp.buffer ++ text })

/-- `SentenceSplitter.flush`: clear the buffer, returning the stripped
remainder, or `None` when only whitespace remains. -/
def flush (sp : SentenceSplitter) : Option (List Char) × SentenceSplitter :=
  if (pyStrip sp.buffer).isEmpty then (none, { sp with buffer := ([] : List Char) })
  else (some (pyStrip sp.buffer), { sp with buffer := ([] : List Char) })

/-- Feed a list of chunks through `add_text` in order, collecting all
emitted sentences and the final splitter state. -/
def feedAll (sp : SentenceSplitter) : List (List Char) → List (List Char) × SentenceSplitter
  | [] => ([], sp)
  | c :: rest =>
    let r1 := add_text sp c
    let r2 := feedAll r1.2 rest
    (r1.1 ++ r2.1, r2.2)

/-- One declared parameter of a registered callable, as seen by
`inspect.signature` in `FunctionHandler.execute`. -/
structure Param where
  name : String
  hasDefault : Bool
deriving DecidableEq, Repr

/-- A registered Python callable: its declared parameters and its body
(modelled as a total function of the filtered keyword arguments). -/
structure PyFunc where
  params : List Param
  impl : List (String × String) → String

/-- The `{success, result|error}` dict returned by `execute`. -/
structure FuncResult where
  success : Bool
  result : String := ""
  error : String := ""
deriving DecidableEq, Repr

/-- The argument-filtering loop of `FunctionHandler.execute`: declared
parameters present in `args` are forwarded; a declared parameter that is
absent and has no default fails fast; undeclared keys are never read. -/
def filterArgs : List Param → List (String × String) → Except String (List (String × String))
  | [], _ => .ok []
  | p :: ps, args =>
    match args.lookup p.name with
    | some v =>
      match filterArgs ps args with
      | .ok rest => .ok ((p.name, v) :: rest)
      | .error e => .error e
    | none =>
      if p.hasDefault then filterArgs ps args
      else .error ("Missing required parameter: " ++ p.name)

/-- The body of `FunctionHandler.execute` once the callable is found:
filter the arguments, fail without invoking the callable on a missing
required parameter, otherwise invoke it on the filtered arguments. -/
def executeFunc (f : PyFunc) (args : List (String × String)) : FuncResult :=
  match filterArgs f.params args with
  | .error e => { success := false, error := e }
  | .ok filtered_args => { success := true, result := f.impl filtered_args }

/-- One entry of `FunctionHandler.functions`: callable, description and the
JSON parameter schema (an opaque payload, never interpreted). -/
structure RegEntry where
  func : PyFunc
  description : String
  parameters : String

/-- A `{type: "function", function: {name, description, parameters}}` tool
descriptor produced by `format_functions_for_llm` (`ttype` models the
`"type"` key). -/
structure ToolSpec where
  ttype : String := "function"
  name : String
  description : String
  parameters : String
deriving DecidableEq, Repr

/-- `FunctionHandler.format_functions_for_llm`. -/
def format_functions_for_llm (functions : List (String × RegEntry)) : List ToolSpec :=
  functions.map (fun nv =>
    { ttype := "function", name := nv.1, description := nv.2.description,
      parameters := nv.2.parameters })

/-- `FunctionHandler.execute`: unknown names fail; otherwise run the
filtering-and-invocation body on the registered callable. -/
def execute (functions : List (String × RegEntry)) (function_name : String)
    (arguments : List (String × String)) : FuncResult :=
  match functions.lookup function_name with
  | none => { success := false, error := "Unknown function: " ++ function_name }
  | some info => executeFunc info.func arguments

/-- The LLM collaborator configuration values the loop reads. -/
structure LLMConfig where
  max_tokens : Nat := 512
  temperature : Int := 0
deriving DecidableEq, Repr

/-- A function call requested by the LLM (`{id, function: {name, arguments}}`,
with the JSON argument string already parsed to a mapping). -/
structure FunctionCall where
  id : Option String := none
  name : String
  arguments : List (String × String) := []
deriving DecidableEq, Repr

/-- The `{response, function_calls}` dict returned by `llm.chat`. -/
structure ChatResult where
  response : String
  function_calls : List FunctionCall := []
deriving Repr

/-- The batch LLM collaborator:
`chat(messages, max_tokens, temperature, tools)`. -/
abbrev ChatFn := List Msg → Nat → Int → Option (List ToolSpec) → ChatResult

/-- One `{delta, done}` event of `llm.stream_chat`. -/
structure StreamChunk where
  delta : String
  done : Bool := false
deriving DecidableEq, Repr

/-- The behaviour of this turn's `stream_chat` call: either the full chunk
sequence, or an exception raised after some initial chunks were consumed. -/
inductive StreamAttempt where
  | ok (chunks : List StreamChunk)
  | raises (earlyChunks : List StreamChunk) (message : String)
deriving Repr

/-- Python truthiness of the `tools` variable (`None` and `[]` are falsy). -/
def toolsTruthy : Option (List ToolSpec) → Bool
  | none => false
  | some l => !l.isEmpty

/-- One recorded LLM invocation, with the arguments it received. -/
inductive LLMCall where
  | batch (messages : List Msg) (max_tokens : Nat) (temperature : Int)
      (tools : Option (List ToolSpec))
  | streaming (messages : List Msg) (max_tokens : Nat) (temperature : Int)
deriving Repr

/-- Whether a recorded call is compatible with "no tools offered": any
streaming call, or a batch call whose tools argument is `None`. -/
def batchToolsNoneB : LLMCall → Bool
  | .batch _ _ _ (some _) => false
  | _ => true

/-- Whether the first recorded call, if it is a batch call, received exactly
the given tools argument. -/
def headToolsOk (calls : List LLMCall) (t0 : Option (List ToolSpec)) : Bool :=
  match calls with
  | .batch _ _ _ t :: _ => decide (t = t0)
  | _ => true

/-- The mutable state of the streaming loop in
`_process_streaming_response`: splitter, accumulated response, and the
`sentences_spoken` list. -/
structure StreamState where
  splitter : SentenceSplitter
  full : List Char
  spoken : List (List Char)
deriving DecidableEq, Repr

/-- Dispatch newly detected sentences: each nonempty sentence not already in
`sentences_spoken` is appended (and spoken in a background thread). -/
def speakNew (spoken : List (List Char)) (sentences : List (List Char)) :
    List (List Char) :=
  sentences.foldl
    (fun acc s => if !s.isEmpty && !acc.contains s then acc ++ [s] else acc) spoken

/-- The `for chunk in stream` loop: stop at a `done` chunk, skip empty
deltas, otherwise accumulate the delta and feed it to the splitter. -/
def consumeChunks : StreamState → List StreamChunk → StreamState
  | st, [] => st
  | st, c :: rest =>
    if c.done then st
    else if c.delta.isEmpty then consumeChunks st rest
    else
      let r := add_text st.splitter c.delta.data
      consumeChunks
        { splitter := r.2, full := st.full ++ c.delta.data,
          spoken := speakNew st.spoken r.1 } rest

/-- Result of `_process_streaming_response`: the returned text, the sentences
dispatched to speech (in dispatch order), and the LLM calls made. -/
structure StreamOutcome where
  response : String
  speech : List (List Char)
  calls : List LLMCall
deriving Repr

/-- `_process_streaming_response`: with truthy tools a `ValueError` is raised
at once and caught by the fallback handler; otherwise the stream is consumed
(speaking sentences as they are detected, then the flushed remainder when it
is longer than 10 characters) and the stripped accumulated text is returned;
any exception while streaming falls back to the batch `chat` call with the
same messages, max_tokens and temperature. -/
def processStreamingResponse (chat : ChatFn) (messages : List Msg)
    (max_tokens : Nat) (temperature : Int) (tools : Option (List ToolSpec))
    (att : StreamAttempt) : StreamOutcome :=
  if toolsTruthy tools then
    let result := chat messages max_tokens temperature none
    { response := result.response, speech := [],
      calls := [.batch messages max_tokens temperature none] }
  else
    match att with
    | .ok chunks =>
      let st := consumeChunks { splitter := {}, full := [], spoken := [] } chunks
      let remaining := (flush st.splitter).1
      let extra :=
        match remaining with
        | some r => if 10 < (pyStrip r).length then [pyStrip r] else []
        | none => []
      { response := String.mk (pyStrip st.full), speech := st.spoken ++ extra,
        calls := [.streaming messages max_tokens temperature] }
    | .raises earlyChunks _ =>
      let st := consumeChunks { splitter := {}, full := [], spoken := [] } earlyChunks
      let result := chat messages max_tokens temperature none
      { response := result.response, speech := st.spoken,
        calls := [.streaming messages max_tokens temperature,
                  .batch messages max_tokens temperature none] }

/-- Build the `tool`-role message appended for one executed function call
(`Error: <message>` content on failure). -/
def toolMsg (functions : List (String × RegEntry)) (fc : FunctionCall) : Msg :=
  let func_result := execute functions fc.name fc.arguments
  if func_result.success then
    { role := "tool", content := func_result.result,
      tool_call_id := fc.id, name := some fc.name }
  else
    { role := "tool", content := "Error: " ++ func_result.error,
      tool_call_id := fc.id, name := some fc.name }

/-- `max_iterations = 5`, the hard cap of the function-call chain. -/
def max_iterations : Nat := 5

/-- Result of one orchestration turn. -/
structure LoopResult where
  response : String
  history : List Msg
  calls : List LLMCall
  speech : List (List Char)
deriving Repr

/-- The `while iteration < max_iterations` loop of `process_command`, with
`fuel` the remaining iterations and `iter` the completed ones (so the Python
`iteration` is `iter + 1`).  Streaming is taken only on iteration 1 with
falsy tools and is terminal; the batch call passes the tools only on
iteration 1; responses with function calls append tool messages and
continue; exhaustion falls back to the last computed response. -/
def loopAux (chat : ChatFn) (att : StreamAttempt)
    (functions : List (String × RegEntry)) (effective_max_tokens : Nat)
    (temperature : Int) (use_functions stream : Bool)
    (tools : Option (List ToolSpec)) :
    Nat → Nat → List Msg → String → LoopResult
  | 0, _, history, last_response =>
    { response := last_response, history := history, calls := [], speech := [] }
  | fuel + 1, iter, history, _ =>
    let iteration := iter + 1
    if stream && iteration == 1 && !toolsTruthy tools then
      let so := processStreamingResponse chat history effective_max_tokens
        temperature none att
      { response := so.response, history := history, calls := so.calls,
        speech := so.speech }
    else
      let tools_arg := if iteration == 1 then tools else none
      let result := chat history effective_max_tokens temperature tools_arg
      if use_functions && !result.function_calls.isEmpty then
        let history2 := history ++ result.function_calls.map (toolMsg functions)
        let r := loopAux chat att functions effective_max_tokens temperature
          use_functions stream tools fuel iteration history2 result.response
        { r with
            calls := .batch history effective_max_tokens temperature tools_arg :: r.calls }
      else
        { response := result.response, history := history,
          calls := [.batch history effective_max_tokens temperature tools_arg],
          speech := [] }

/-- Python `max_tokens or self.config.llm.max_tokens` (`0` is falsy). -/
def pyOrNat (a b : Nat) : Nat := if a == 0 then b else a

/-- `process_command`: append the user message, manage context, fetch the
tool descriptors when functions are enabled, run the bounded loop, and
append the final response as an assistant message. -/
def process_command (cm : ContextManager)
    (scb : Option (List Msg → Except String String))
    (functions : List (String × RegEntry)) (cfg : LLMConfig)
    (chat : ChatFn) (att : StreamAttempt)
    (history : List Msg) (user_input : String) (max_tokens : Nat)
    (use_functions stream : Bool) : LoopResult :=
  let history1 := history ++ [{ role := "user", content := user_input }]
  let managed_history := manage_context cm scb history1 true
  let tools : Option (List ToolSpec) :=
    if use_functions then some (format_functions_for_llm functions) else none
  let r := loopAux chat att functions (pyOrNat max_tokens cfg.max_tokens)
    cfg.temperature use_functions stream tools max_iterations 0 managed_history ""
  { r with
      response := r.response,
      history := r.history ++ [{ role := "assistant", content := r.response }] }

/-! ## Concrete inputs used by the claim theorems -/

/-- A system message. -/
def sysMsg : Msg := { role := "system", content := "You are Jane" }

/-- A non-system message classified important by `is_important` (its content
contains "function" and "result" case-insensitively). -/
def impMsg : Msg := { role := "user", content := "Function result" }

/-- A plain user message, not important. -/
def userMsg : Msg := { role := "user", content := "hi" }

/-- The input exhibiting the pruning-bound overflow: one system message and
three important messages against `max_messages = 2`. -/
def C1messages : List Msg := [sysMsg, impMsg, impMsg, impMsg]

/-- A batch LLM stub whose response is never used by the streaming branch. -/
def chatUnused : ChatFn := fun _ _ _ _ => { response := "unused" }

/-- The stream of the spec scenario: deltas `"Hello. "`, `"World. "`, done. -/
def C3chunks : List StreamChunk :=
  [{ delta := "Hello. " }, { delta := "World. " }, { delta := "", done := true }]

/-- All retained system messages precede all non-system messages. -/
def sysFirstB (l : List Msg) : Bool :=
  decide (l = l.filter pSysB ++ l.filter (fun m => !pSysB m))

/-- The spec's `test_add(a, b)` spy: both parameters required; the body
reports that it was invoked. -/
def test_add : PyFunc :=
  { params := [{ name := "a", hasDefault := false },
               { name := "b", hasDefault := false }],
    impl := fun _ => "invoked" }

/-! ## Claim theorems -/

/-- Claim C1 (code bug): `prune_context` is claimed to return at most
`max_messages` messages whenever the input is longer.  At
`max_messages = 2` with one system and three important messages the
remaining slot budget floor-divides to `0`, the Python slice
`important_messages[-0:]` keeps every important message, and the function
returns all four messages — the bound fails. -/
theorem C1_prune_exceeds_bound :
    (prune_context ⟨2, 30⟩ C1messages true true).length = 4
    ∧ ¬ ((prune_context ⟨2, 30⟩ C1messages true true).length ≤ 2)
    ∧ 2 < C1messages.length := by
  refine ⟨by decide, by decide, by decide⟩

/-- Claim C3, as stated, is false: with the default
`min_sentence_length = 10`, the boundary after `"Hello."` (6 characters) is
rejected, so the segmenter never dispatches `"Hello."` and `"World."`
separately. -/
theorem C3_single_dispatch_counterexample :
    ¬ ((process_command ⟨20, 30⟩ none [] {} chatUnused (.ok C3chunks) [] "hi" 0
          false true).speech
        = ["Hello.".data, "World.".data]) := by
  decide

/-- Claim C3, amended: on the stream `"Hello. "`, `"World. "`, done, the
segmenter dispatches the single sentence `"Hello. World."` (after the second
delta), and `process_command` returns `"Hello. World."` trimmed. -/
theorem C3_amended_stream_scenario :
    (process_command ⟨20, 30⟩ none [] {} chatUnused (.ok C3chunks) [] "hi" 0
        false true).speech = ["Hello. World.".data]
    ∧ (process_command ⟨20, 30⟩ none [] {} chatUnused (.ok C3chunks) [] "hi" 0
        false true).response = "Hello. World." := by
  refine ⟨by decide, by decide⟩

/-- Claim C4 (code bug): the boundary after `"Helloo Dr. "` ends in the
abbreviation `"Dr."`, yet `add_text` accepts it and emits `"Helloo Dr."`:
`rstrip('.,!?;:')` strips the trailing dot, so the stripped last word
`"dr"` never matches the dot-terminated entries of `ABBREVIATIONS` and the
abbreviation guard cannot fire. -/
theorem C4_abbreviation_guard_inoperative :
    (add_text { min_sentence_length := 10, buffer := [] } "Helloo Dr. ".data).1
      = ["Helloo Dr.".data]
    ∧ "dr.".data ∈ ABBREVIATIONS := by
  refine ⟨by decide, by decide⟩

/-- Claim C7: an exception raised while consuming the streaming LLM call is
caught, and `process_command` returns the batch `chat` response obtained
with the same messages, max_tokens and temperature (the call log shows
exactly the failed streaming call followed by the batch fallback with
identical arguments); no streaming error reaches the caller. -/
theorem C7_streaming_fallback (cm : ContextManager)
    (scb : Option (List Msg → Except String String))
    (functions : List (String × RegEntry)) (cfg : LLMConfig) (chat : ChatFn)
    (early : List StreamChunk) (err : String) (history : List Msg)
    (user_input : String) (mt : Nat) :
    (process_command cm scb functions cfg chat (.raises early err) history
        user_input mt false true).response
      = (chat (manage_context cm scb
            (history ++ [{ role := "user", content := user_input }]) true)
          (pyOrNat mt cfg.max_tokens) cfg.temperature none).response
    ∧ (process_command cm scb functions cfg chat (.raises early err) history
        user_input mt false true).calls
      = [.streaming (manage_context cm scb
            (history ++ [{ role := "user", content := user_input }]) true)
          (pyOrNat mt cfg.max_tokens) cfg.temperature,
         .batch (manage_context cm scb
            (history ++ [{ role := "user", content := user_input }]) true)
          (pyOrNat mt cfg.max_tokens) cfg.temperature none] :=
  ⟨rfl, rfl⟩

/-- Claim C10, as stated, is false for inputs at or under the budget: a
two-message history `[user, system]` is returned unchanged by
`prune_context`, with the system message after a non-system message. -/
theorem C10_order_counterexample :
    sysFirstB (prune_context ⟨20, 30⟩ [userMsg, sysMsg] true true) = false
    ∧ prune_context ⟨20, 30⟩ [userMsg, sysMsg] true true = [userMsg, sysMsg]
    ∧ pSysB userMsg = false ∧ pSysB sysMsg = true := by
  refine ⟨by decide, by decide, by decide, by decide⟩

/-! ## Segmenter conservation (claim C9) -/

theorem nonWs_append (a b : List Char) : nonWs (a ++ b) = nonWs a ++ nonWs b :=
  List.filter_append ..

theorem nonWs_dropWhile (l : List Char) :
    nonWs (l.dropWhile isPySpace) = nonWs l := by
  induction l with
  | nil => rfl
  | cons c rest ih =>
    by_cases h : isPySpace c
    · simpa [List.dropWhile_cons, h, nonWs] using ih
    · simp [List.dropWhile_cons, h, nonWs]

theorem nonWs_reverse (l : List Char) : nonWs l.reverse = (nonWs l).reverse := by
  simp [nonWs, List.filter_reverse]

theorem nonWs_pyStrip (l : List Char) : nonWs (pyStrip l) = nonWs l := by
  unfold pyStrip
  rw [nonWs_reverse, nonWs_dropWhile, nonWs_reverse, List.reverse_reverse,
    nonWs_dropWhile]

theorem add_text_nonWs (sp : SentenceSplitter) (text : List Char) :
    nonWs ((add_text sp text).1.flatten ++ (add_text sp text).2.buffer)
      = nonWs (sp.buffer ++ text) := by
  unfold add_text
  cases h : findBoundary sp.min_sentence_length (sp.buffer ++ text) with
  | none => simp
  | some e =>
    simp only [List.flatten_cons, List.flatten_nil, List.append_nil]
    rw [nonWs_append, nonWs_pyStrip, ← nonWs_append, List.take_append_drop]

theorem feedAll_nonWs (chunks : List (List Char)) :
    ∀ sp : SentenceSplitter,
      nonWs ((feedAll sp chunks).1.flatten ++ (feedAll sp chunks).2.buffer)
        = nonWs (sp.buffer ++ chunks.flatten) := by
  induction chunks with
  | nil => intro sp; simp [feedAll]
  | cons c rest ih =>
    intro sp
    have h1 := add_text_nonWs sp c
    have h2 := ih (add_text sp c).2
    simp only [feedAll, List.flatten_cons, List.flatten_append]
    rw [List.append_assoc, nonWs_append, h2, ← nonWs_append, ← List.append_assoc,
      nonWs_append, h1, ← nonWs_append, List.append_assoc]

theorem flush_nonWs (sp : SentenceSplitter) :
    nonWs ((flush sp).1.getD []) = nonWs sp.buffer := by
  have hstrip := nonWs_pyStrip sp.buffer
  unfold flush
  by_cases h : (pyStrip sp.buffer).isEmpty
  · have h0 : pyStrip sp.buffer = [] := by
      cases h2 : pyStrip sp.buffer with
      | nil => rfl
      | cons x xs => rw [h2] at h; simp [List.isEmpty] at h
    rw [if_pos h]
    show nonWs [] = nonWs sp.buffer
    rw [← hstrip, h0]
  · rw [if_neg h]
    show nonWs (pyStrip sp.buffer) = nonWs sp.buffer
    exact hstrip

/-- Claim C9, as stated, is false: on the single chunk
`"Hello darkness my old. Friend."` the emitted sentence is stripped, so the
concatenation of the `add_text` outputs and the flushed remainder drops the
inter-sentence space and differs from the original text. -/
theorem C9_reconstitution_counterexample :
    ¬ ((feedAll { min_sentence_length := 10, buffer := [] }
          ["Hello darkness my old. Friend.".data]).1.flatten
        ++ ((flush (feedAll { min_sentence_length := 10, buffer := [] }
              ["Hello darkness my old. Friend.".data]).2).1.getD [])
        = "Hello darkness my old. Friend.".data) := by
  decide

/-- Claim C9, amended: for every splitting of the input into `add_text`
chunks (at any minimum sentence length), the concatenation of all emitted
sentences plus the final `flush` result reconstitutes the input's
non-whitespace characters exactly once and in order — only the whitespace
trimmed at sentence boundaries is dropped, nothing is duplicated or lost. -/
theorem C9_reconstitution_up_to_whitespace (min_len : Nat)
    (chunks : List (List Char)) :
    nonWs ((feedAll { min_sentence_length := min_len, buffer := [] } chunks).1.flatten
        ++ ((flush (feedAll { min_sentence_length := min_len, buffer := [] }
              chunks).2).1.getD []))
      = nonWs chunks.flatten := by
  rw [nonWs_append, flush_nonWs, ← nonWs_append]
  simpa using feedAll_nonWs chunks { min_sentence_length := min_len, buffer := [] }

/-! ## Context-manager fallback (claim C8) -/

/-- The no-op branch of `prune_context`. -/
theorem prune_context_noop (cm : ContextManager) (messages : List Msg)
    (ks ki : Bool) (h : messages.length ≤ cm.max_messages) :
    prune_context cm messages ks ki = messages := by
  unfold prune_context
  rw [if_pos h]

/-- Claim C8: a raising summarize callback makes `summarize_context` return
`None` without propagating; `manage_context` then returns plain
`prune_context` of the input, and the same fallback is taken when no
callback is configured. -/
theorem C8_summarize_failure_fallback (cm : ContextManager)
    (f : List Msg → Except String String) (messages : List Msg) (e : String)
    (add_summary : Bool) :
    (f messages = .error e → summarize_context cm (some f) messages = none)
    ∧ (f (messages.take (messages.length - cm.max_messages / 2)) = .error e →
        manage_context cm (some f) messages add_summary
          = prune_context cm messages true true)
    ∧ manage_context cm none messages add_summary
        = prune_context cm messages true true := by
  have hsumm : f (messages.take (messages.length - cm.max_messages / 2)) = .error e →
      summarize_context cm (some f)
        (messages.take (messages.length - cm.max_messages / 2)) = none := by
    intro hf
    simp only [summarize_context]
    by_cases hlen : (messages.take (messages.length - cm.max_messages / 2)).length < 2
    · rw [if_pos hlen]
    · rw [if_neg hlen, hf]
  refine ⟨?_, ?_, ?_⟩
  · intro hf
    simp only [summarize_context]
    by_cases hlen : messages.length < 2
    · rw [if_pos hlen]
    · rw [if_neg hlen, hf]
  · intro hf
    by_cases hle : messages.length ≤ cm.max_messages
    · rw [prune_context_noop cm messages true true hle]
      simp only [manage_context]
      rw [if_pos hle]
    · by_cases hs : (decide (cm.summarize_threshold ≤ messages.length)
          && add_summary) = true
      · simp only [manage_context, hs, Option.isSome_some, Bool.and_true, if_neg hle,
          if_true, hsumm hf]
      · have hs2 : (decide (cm.summarize_threshold ≤ messages.length)
            && add_summary) = false := by simpa using hs
        simp only [manage_context, if_neg hle, hs2, Bool.false_and,
          Bool.false_eq_true, if_false]
  · by_cases hle : messages.length ≤ cm.max_messages
    · rw [prune_context_noop cm messages true true hle]
      simp only [manage_context]
      rw [if_pos hle]
    · simp only [manage_context, if_neg hle, Option.isSome_none, Bool.and_false,
        Bool.false_eq_true, if_false]

/-- Witness for C8 at a concrete raising callback: four messages against
`max_messages = 2`, callback always raising `"boom"`. -/
theorem C8_summarize_failure_fallback_witness :
    summarize_context ⟨2, 3⟩ (some fun _ => .error "boom")
        [userMsg, userMsg, userMsg, userMsg] = none
    ∧ manage_context ⟨2, 3⟩ (some fun _ => .error "boom")
        [userMsg, userMsg, userMsg, userMsg] true
      = prune_context ⟨2, 3⟩ [userMsg, userMsg, userMsg, userMsg] true true := by
  have h := C8_summarize_failure_fallback ⟨2, 3⟩ (fun _ => .error "boom")
    [userMsg, userMsg, userMsg, userMsg] "boom" true
  exact ⟨h.1 rfl, h.2.1 rfl⟩

/-! ## Function-registry argument filtering (claim C5) -/

theorem filterArgs_error_of_missing (ps : List Param)
    (args : List (String × String))
    (h : ∃ p, p ∈ ps ∧ p.hasDefault = false ∧ args.lookup p.name = none) :
    ∃ e, filterArgs ps args = .error e := by
  induction ps with
  | nil => obtain ⟨p, hp, -, -⟩ := h; cases hp
  | cons hd ps ih =>
    obtain ⟨q, hq, hqd, hql⟩ := h
    cases h1 : args.lookup hd.name with
    | some w =>
      have hq2 : q ∈ ps := by
        cases List.mem_cons.mp hq with
        | inl heq => rw [heq] at hql; rw [hql] at h1; cases h1
        | inr hmem => exact hmem
      obtain ⟨e, he⟩ := ih ⟨q, hq2, hqd, hql⟩
      refine ⟨e, ?_⟩
      simp only [filterArgs, h1, he]
    | none =>
      by_cases hd2 : hd.hasDefault
      · have hq2 : q ∈ ps := by
          cases List.mem_cons.mp hq with
          | inl heq => rw [heq] at hqd; rw [hqd] at hd2; cases hd2
          | inr hmem => exact hmem
        obtain ⟨e, he⟩ := ih ⟨q, hq2, hqd, hql⟩
        refine ⟨e, ?_⟩
        simp only [filterArgs, h1, hd2, if_true, he]
      · refine ⟨"Missing required parameter: " ++ hd.name, ?_⟩
        simp [filterArgs, h1, hd2]

theorem filterArgs_ok_forward (ps : List Param) (args fa : List (String × String))
    (h : filterArgs ps args = .ok fa) :
    ∀ p, p ∈ ps → ∀ v, args.lookup p.name = some v →
      fa.lookup p.name = some v := by
  induction ps generalizing fa with
  | nil => intro p hp; cases hp
  | cons hd ps ih =>
    intro p hp v hv
    cases h1 : args.lookup hd.name with
    | some w =>
      cases h2 : filterArgs ps args with
      | ok rest =>
        have hfa : fa = (hd.name, w) :: rest := by
          simp only [filterArgs, h1, h2, Except.ok.injEq] at h
          exact h.symm
        by_cases hname : p.name = hd.name
        · have hvw : v = w := by
            rw [hname, h1] at hv
            exact (Option.some.inj hv).symm
          rw [hfa, hvw]
          simp [List.lookup, hname]
        · rw [hfa]
          have hp2 : p ∈ ps := by
            cases List.mem_cons.mp hp with
            | inl heq => rw [heq] at hname; exact absurd rfl hname
            | inr hmem => exact hmem
          have hbeq : (p.name == hd.name) = false := by
            simp [hname]
          have := ih rest h2 p hp2 v hv
          simpa [List.lookup, hbeq] using this
      | error e => simp [filterArgs, h1, h2] at h
    | none =>
      by_cases hd2 : hd.hasDefault
      · have h3 : filterArgs ps args = .ok fa := by
          simpa only [filterArgs, h1, hd2, if_true] using h
        have hp2 : p ∈ ps := by
          cases List.mem_cons.mp hp with
          | inl heq => rw [heq] at hv; rw [hv] at h1; cases h1
          | inr hmem => exact hmem
        exact ih fa h3 p hp2 v hv
      · simp [filterArgs, h1, hd2] at h

theorem filterArgs_ok_keys (ps : List Param) (args fa : List (String × String))
    (h : filterArgs ps args = .ok fa) :
    ∀ k v, (k, v) ∈ fa →
      (∃ p, p ∈ ps ∧ p.name = k) ∧ args.lookup k = some v := by
  induction ps generalizing fa with
  | nil =>
    intro k v hkv
    simp only [filterArgs, Except.ok.injEq] at h
    rw [← h] at hkv
    cases hkv
  | cons hd ps ih =>
    intro k v hkv
    cases h1 : args.lookup hd.name with
    | some w =>
      cases h2 : filterArgs ps args with
      | ok rest =>
        have hfa : fa = (hd.name, w) :: rest := by
          simp only [filterArgs, h1, h2, Except.ok.injEq] at h
          exact h.symm
        rw [hfa] at hkv
        cases List.mem_cons.mp hkv with
        | inl heq =>
          have hk : k = hd.name := congrArg Prod.fst heq
          have hv : v = w := congrArg Prod.snd heq
          refine ⟨⟨hd, List.mem_cons_self .., hk.symm⟩, ?_⟩
          rw [hk, h1, hv]
        | inr hmem =>
          obtain ⟨⟨p, hp, hpn⟩, hlk⟩ := ih rest h2 k v hmem
          exact ⟨⟨p, List.mem_cons_of_mem _ hp, hpn⟩, hlk⟩
      | error e => simp [filterArgs, h1, h2] at h
    | none =>
      by_cases hd2 : hd.hasDefault
      · have h3 : filterArgs ps args = .ok fa := by
          simpa only [filterArgs, h1, hd2, if_true] using h
        obtain ⟨⟨p, hp, hpn⟩, hlk⟩ := ih fa h3 k v hkv
        exact ⟨⟨p, List.mem_cons_of_mem _ hp, hpn⟩, hlk⟩
      · simp [filterArgs, h1, hd2] at h

/-- Claim C5: a declared parameter with no default that is absent from the
arguments makes `execute` fail with `success = false` without invoking the
callable (the result is independent of the callable's body); on success,
declared parameters present in the arguments are forwarded with their
values, and every forwarded key is a declared parameter taken from the
arguments (undeclared keys are dropped); the registry dispatches `execute`
to the registered callable's filtering body. -/
theorem C5_execute_missing_required (f : PyFunc) (args : List (String × String)) :
    ((∃ p, p ∈ f.params ∧ p.hasDefault = false ∧ args.lookup p.name = none) →
      (executeFunc f args).success = false
      ∧ ∀ impl2, executeFunc { f with impl := impl2 } args = executeFunc f args)
    ∧ (∀ fa, filterArgs f.params args = .ok fa →
        (∀ p, p ∈ f.params → ∀ v, args.lookup p.name = some v →
          fa.lookup p.name = some v)
        ∧ (∀ k v, (k, v) ∈ fa →
            (∃ p, p ∈ f.params ∧ p.name = k) ∧ args.lookup k = some v))
    ∧ (∀ (functions : List (String × RegEntry)) (nm : String) (entry : RegEntry),
        functions.lookup nm = some entry →
        execute functions nm args = executeFunc entry.func args) := by
  refine ⟨?_, ?_, ?_⟩
  · intro hmiss
    obtain ⟨e, he⟩ := filterArgs_error_of_missing f.params args hmiss
    constructor
    · simp only [executeFunc, he]
    · intro impl2
      simp only [executeFunc, he]
  · intro fa hfa
    exact ⟨filterArgs_ok_forward f.params args fa hfa,
      filterArgs_ok_keys f.params args fa hfa⟩
  · intro functions nm entry hlk
    simp only [execute, hlk]

/-- Witness for C5: `execute("test_add", {"a": 5})` fails with
`success = false`, and replacing the callable's body by a different spy
yields the identical result — the callable was not invoked. -/
theorem C5_execute_missing_required_witness :
    (executeFunc test_add [("a", "5")]).success = false
    ∧ executeFunc { test_add with impl := fun _ => "spy" } [("a", "5")]
      = executeFunc test_add [("a", "5")] := by
  have h := (C5_execute_missing_required test_add [("a", "5")]).1
    ⟨{ name := "b", hasDefault := false }, by decide, rfl, rfl⟩
  exact ⟨h.1, h.2 _⟩

/-! ## The bounded orchestration loop (claims C2 and C6) -/

theorem processStreamingResponse_calls_len (chat : ChatFn) (messages : List Msg)
    (mt : Nat) (tp : Int) (tools : Option (List ToolSpec)) (att : StreamAttempt) :
    (processStreamingResponse chat messages mt tp tools att).calls.length ≤ 2 := by
  cases att <;> by_cases h : toolsTruthy tools <;>
    simp [processStreamingResponse, h]

theorem loopAux_calls_le (chat : ChatFn) (att : StreamAttempt)
    (functions : List (String × RegEntry)) (mt : Nat) (tp : Int)
    (uf st : Bool) (tools : Option (List ToolSpec)) (fuel : Nat) :
    ∀ iter history resp, 1 ≤ iter →
      (loopAux chat att functions mt tp uf st tools fuel iter history resp).calls.length
        ≤ fuel := by
  induction fuel with
  | zero => intro iter history resp _; simp [loopAux]
  | succ fuel ih =>
    intro iter history resp hiter
    have hbeq : (iter + 1 == 1) = false := by
      have : iter + 1 ≠ 1 := by omega
      simpa using this
    simp only [loopAux, hbeq, Bool.and_false, Bool.false_and, Bool.false_eq_true,
      if_false]
    by_cases hfc : (uf && !(chat history mt tp none).function_calls.isEmpty) = true
    · rw [if_pos hfc]
      simp only [List.length_cons]
      exact Nat.succ_le_succ (ih _ _ _ (by omega))
    · rw [if_neg hfc]
      simp

theorem loopAux_calls_le_start (chat : ChatFn) (att : StreamAttempt)
    (functions : List (String × RegEntry)) (mt : Nat) (tp : Int)
    (uf st : Bool) (tools : Option (List ToolSpec)) (fuel : Nat)
    (history : List Msg) (resp : String) :
    (loopAux chat att functions mt tp uf st tools (fuel + 1) 0 history
        resp).calls.length ≤ max 2 (fuel + 1) := by
  simp only [loopAux]
  by_cases hcond : (st && (0 + 1 == 1) && !toolsTruthy tools) = true
  · rw [if_pos hcond]
    exact le_trans (processStreamingResponse_calls_len chat history mt tp none att)
      (le_max_left _ _)
  · rw [if_neg hcond]
    by_cases hfc : (uf && !(chat history mt tp
        (if (0 + 1 == 1) = true then tools else none)).function_calls.isEmpty) = true
    · rw [if_pos hfc]
      refine le_trans ?_ (le_max_right 2 (fuel + 1))
      simp only [List.length_cons]
      exact Nat.succ_le_succ
        (loopAux_calls_le chat att functions mt tp uf st tools fuel _ _ _ (by omega))
    · rw [if_neg hfc]
      refine le_trans ?_ (le_max_right 2 (fuel + 1))
      simp

/-- Claim C2: the orchestration loop of `process_command` always terminates
(it is a total function of its fuel) and makes at most
`max_iterations = 5` LLM invocations per turn — for every batch collaborator,
including one whose every response carries function calls, and for every
streaming behaviour. -/
theorem C2_llm_call_bound (cm : ContextManager)
    (scb : Option (List Msg → Except String String))
    (functions : List (String × RegEntry)) (cfg : LLMConfig) (chat : ChatFn)
    (att : StreamAttempt) (history : List Msg) (user_input : String)
    (mt : Nat) (uf st : Bool) :
    (process_command cm scb functions cfg chat att history user_input mt
        uf st).calls.length ≤ max_iterations := by
  have key := loopAux_calls_le_start chat att functions (pyOrNat mt cfg.max_tokens)
    cfg.temperature uf st
    (if uf then some (format_functions_for_llm functions) else none) 4
    (manage_context cm scb
      (history ++ [{ role := "user", content := user_input }]) true) ""
  exact le_trans key (by norm_num [max_iterations])

theorem loopAux_tools_none (chat : ChatFn) (att : StreamAttempt)
    (functions : List (String × RegEntry)) (mt : Nat) (tp : Int)
    (uf st : Bool) (tools : Option (List ToolSpec)) (fuel : Nat) :
    ∀ iter history resp, 1 ≤ iter →
      (loopAux chat att functions mt tp uf st tools fuel iter history
          resp).calls.all batchToolsNoneB = true := by
  induction fuel with
  | zero => intro iter history resp _; simp [loopAux]
  | succ fuel ih =>
    intro iter history resp hiter
    have hbeq : (iter + 1 == 1) = false := by
      have : iter + 1 ≠ 1 := by omega
      simpa using this
    simp only [loopAux, hbeq, Bool.and_false, Bool.false_and, Bool.false_eq_true,
      if_false]
    by_cases hfc : (uf && !(chat history mt tp none).function_calls.isEmpty) = true
    · rw [if_pos hfc]
      rw [List.all_cons, Bool.and_eq_true]
      exact ⟨rfl, ih _ _ _ (by omega)⟩
    · rw [if_neg hfc]
      simp [batchToolsNoneB]

theorem loopAux_start_tools (chat : ChatFn) (att : StreamAttempt)
    (functions : List (String × RegEntry)) (mt : Nat) (tp : Int)
    (uf st : Bool) (tools : Option (List ToolSpec)) (fuel : Nat)
    (history : List Msg) (resp : String) :
    (loopAux chat att functions mt tp uf st tools (fuel + 1) 0 history
        resp).calls.tail.all batchToolsNoneB = true
    ∧ headToolsOk (loopAux chat att functions mt tp uf st tools (fuel + 1) 0 history
        resp).calls tools = true := by
  simp only [loopAux]
  by_cases hcond : (st && (0 + 1 == 1) && !toolsTruthy tools) = true
  · rw [if_pos hcond]
    cases att <;> simp [processStreamingResponse, toolsTruthy, batchToolsNoneB,
      headToolsOk]
  · rw [if_neg hcond]
    by_cases hfc : (uf && !(chat history mt tp
        (if (0 + 1 == 1) = true then tools else none)).function_calls.isEmpty) = true
    · rw [if_pos hfc]
      constructor
      · simp only [List.tail_cons]
        exact loopAux_tools_none chat att functions mt tp uf st tools fuel _ _ _
          (by omega)
      · simp [headToolsOk]
    · rw [if_neg hfc]
      constructor
      · simp
      · simp [headToolsOk]

/-- Claim C6: within one `process_command` turn, the tools list fetched from
the registry is passed to the batch `chat` call only on iteration 1 (the
first recorded call, when it is a batch call, receives exactly that list);
every later recorded batch call receives `None` as its tools argument. -/
theorem C6_tools_only_first_iteration (cm : ContextManager)
    (scb : Option (List Msg → Except String String))
    (functions : List (String × RegEntry)) (cfg : LLMConfig) (chat : ChatFn)
    (att : StreamAttempt) (history : List Msg) (user_input : String)
    (mt : Nat) (uf st : Bool) :
    (process_command cm scb functions cfg chat att history user_input mt
        uf st).calls.tail.all batchToolsNoneB = true
    ∧ headToolsOk (process_command cm scb functions cfg chat att history
        user_input mt uf st).calls
        (if uf then some (format_functions_for_llm functions) else none) = true := by
  unfold process_command
  rw [show max_iterations = 4 + 1 from rfl]
  exact loopAux_start_tools chat att functions (pyOrNat mt cfg.max_tokens)
    cfg.temperature uf st
    (if uf then some (format_functions_for_llm functions) else none) 4
    (manage_context cm scb
      (history ++ [{ role := "user", content := user_input }]) true) ""

/-! ## Pruning-partition invariants (claim C10) -/

theorem pySliceFrom_sublist (l : List Msg) (i : Int) :
    List.Sublist (pySliceFrom l i) l := by
  unfold pySliceFrom
  split
  · exact List.drop_sublist ..
  · exact List.drop_sublist ..

theorem filter_eq_nil_of (p : Msg → Bool) (l : List Msg)
    (h : ∀ m ∈ l, p m = false) : l.filter p = [] := by
  induction l with
  | nil => rfl
  | cons x xs ih =>
    rw [List.filter_cons, h x (List.mem_cons_self ..)]
    exact ih fun m hm => h m (List.mem_cons_of_mem _ hm)

theorem filter_eq_self_of (p : Msg → Bool) (l : List Msg)
    (h : ∀ m ∈ l, p m = true) : l.filter p = l := by
  induction l with
  | nil => rfl
  | cons x xs ih =>
    rw [List.filter_cons, h x (List.mem_cons_self ..)]
    simp only [if_true]
    rw [ih fun m hm => h m (List.mem_cons_of_mem _ hm)]

theorem pImpB_not_sys (m : Msg) (h : pImpB m = true) : pSysB m = false := by
  cases hs : m.role == "system" with
  | false => simp [pSysB, hs]
  | true =>
    exfalso
    simp [pImpB, bne, hs] at h

theorem pRegB_not_sys (m : Msg) (h : pRegB m = true) : pSysB m = false := by
  cases hs : m.role == "system" with
  | false => simp [pSysB, hs]
  | true =>
    exfalso
    simp [pRegB, bne, hs] at h

theorem pSysB_not_imp (m : Msg) (h : pSysB m = true) : pImpB m = false := by
  have h2 : m.role = "system" := by simpa [pSysB] using h
  simp [pImpB, bne, h2]

theorem pSysB_not_reg (m : Msg) (h : pSysB m = true) : pRegB m = false := by
  have h2 : m.role = "system" := by simpa [pSysB] using h
  simp [pRegB, bne, h2]

theorem pRegB_not_imp (m : Msg) (h : pRegB m = true) : pImpB m = false := by
  have h3 := h
  simp only [pRegB, Bool.and_eq_true, Bool.not_eq_true'] at h3
  simp [pImpB, h3.2]

theorem pImpB_not_reg (m : Msg) (h : pImpB m = true) : pRegB m = false := by
  have h3 := h
  simp only [pImpB, Bool.and_eq_true] at h3
  simp [pRegB, h3.2]

/-- Over the budget, the pruned list decomposes as the kept system block
followed by a tail of the important partition and a tail of the regular
partition. -/
theorem prune_context_decomp (cm : ContextManager) (msgs : List Msg)
    (ks ki : Bool) (hlt : cm.max_messages < msgs.length) :
    ∃ B C, prune_context cm msgs ks ki
        = (if ks then msgs.filter pSysB else []) ++ B ++ C
      ∧ List.Sublist B (msgs.filter pImpB)
      ∧ List.Sublist C (msgs.filter pRegB) := by
  simp only [prune_context]
  rw [if_neg (not_le.mpr hlt)]
  split <;> (try split) <;> (try split)
  all_goals
    first
      | exact ⟨_, _, rfl, pySliceFrom_sublist _ _, pySliceFrom_sublist _ _⟩
      | exact ⟨_, [], (List.append_nil _).symm, pySliceFrom_sublist _ _,
          List.nil_sublist _⟩
      | exact ⟨[], _, rfl, List.nil_sublist _, pySliceFrom_sublist _ _⟩
      | exact ⟨[], [], (List.append_nil _).symm, List.nil_sublist _,
          List.nil_sublist _⟩

/-- Claim C10, amended: every message returned by `prune_context` is one of
the input messages; whenever the input exceeds `max_messages` (so that
pruning actually runs) all retained system messages precede all non-system
messages; and the retained system, important and regular messages each form
an order-preserving sublist of the corresponding input partition. -/
theorem C10_prune_invariants (cm : ContextManager) (msgs : List Msg)
    (ks ki : Bool) :
    ((prune_context cm msgs ks ki).all (fun m => decide (m ∈ msgs)) = true)
    ∧ (cm.max_messages < msgs.length →
        sysFirstB (prune_context cm msgs ks ki) = true)
    ∧ List.Sublist ((prune_context cm msgs ks ki).filter pSysB)
        (msgs.filter pSysB)
    ∧ List.Sublist ((prune_context cm msgs ks ki).filter pImpB)
        (msgs.filter pImpB)
    ∧ List.Sublist ((prune_context cm msgs ks ki).filter pRegB)
        (msgs.filter pRegB) := by
  by_cases hle : msgs.length ≤ cm.max_messages
  · rw [prune_context_noop cm msgs ks ki hle]
    refine ⟨?_, ?_, List.Sublist.refl _, List.Sublist.refl _, List.Sublist.refl _⟩
    · rw [List.all_eq_true]
      intro m hm
      exact decide_eq_true hm
    · intro h
      exact absurd h (not_lt.mpr hle)
  · have hlt : cm.max_messages < msgs.length := not_le.mp hle
    obtain ⟨B, C, heq, hB, hC⟩ := prune_context_decomp cm msgs ks ki hlt
    have hAmem : ∀ m ∈ (if ks then msgs.filter pSysB else []), pSysB m = true := by
      intro m hm
      rcases ks with _ | _
      · cases hm
      · exact List.of_mem_filter hm
    have hBmem : ∀ m ∈ B, pImpB m = true :=
      fun m hm => List.of_mem_filter (hB.subset hm)
    have hCmem : ∀ m ∈ C, pRegB m = true :=
      fun m hm => List.of_mem_filter (hC.subset hm)
    have hfilterS : (prune_context cm msgs ks ki).filter pSysB
        = (if ks then msgs.filter pSysB else []) := by
      rw [heq, List.filter_append, List.filter_append,
        filter_eq_self_of _ _ hAmem,
        filter_eq_nil_of _ _ (fun m hm => pImpB_not_sys m (hBmem m hm)),
        filter_eq_nil_of _ _ (fun m hm => pRegB_not_sys m (hCmem m hm)),
        List.append_nil, List.append_nil]
    have hfilterI : (prune_context cm msgs ks ki).filter pImpB = B := by
      rw [heq, List.filter_append, List.filter_append,
        filter_eq_nil_of _ _ (fun m hm => pSysB_not_imp m (hAmem m hm)),
        filter_eq_self_of _ _ hBmem,
        filter_eq_nil_of _ _ (fun m hm => pRegB_not_imp m (hCmem m hm)),
        List.append_nil, List.nil_append]
    have hfilterR : (prune_context cm msgs ks ki).filter pRegB = C := by
      rw [heq, List.filter_append, List.filter_append,
        filter_eq_nil_of _ _ (fun m hm => pSysB_not_reg m (hAmem m hm)),
        filter_eq_nil_of _ _ (fun m hm => pImpB_not_reg m (hBmem m hm)),
        filter_eq_self_of _ _ hCmem,
        List.nil_append, List.nil_append]
    refine ⟨?_, ?_, ?_, ?_, ?_⟩
    · rw [List.all_eq_true]
      intro m hm
      refine decide_eq_true ?_
      rw [heq] at hm
      rcases List.mem_append.mp hm with hm1 | hmC
      · rcases List.mem_append.mp hm1 with hmA | hmB
        · have := hAmem m hmA
          rcases ks with _ | _
          · cases hmA
          · exact List.mem_of_mem_filter hmA
        · exact List.mem_of_mem_filter (hB.subset hmB)
      · exact List.mem_of_mem_filter (hC.subset hmC)
    · intro _
      refine decide_eq_true ?_
      have hfilterN : (prune_context cm msgs ks ki).filter (fun m => !pSysB m)
          = B ++ C := by
        rw [heq, List.filter_append, List.filter_append,
          filter_eq_nil_of _ _ (fun m hm => by rw [hAmem m hm]; rfl),
          filter_eq_self_of _ _ (fun m hm => by rw [pImpB_not_sys m (hBmem m hm)]; rfl),
          filter_eq_self_of _ _ (fun m hm => by rw [pRegB_not_sys m (hCmem m hm)]; rfl),
          List.nil_append]
      rw [hfilterS, hfilterN, heq, List.append_assoc]
    · rw [hfilterS]
      rcases ks with _ | _
      · exact List.nil_sublist _
      · exact List.Sublist.refl _
    · rw [hfilterI]; exact hB
    · rw [hfilterR]; exact hC

/-- Witness for C10 at a concrete over-budget input (`max_messages = 2`,
four messages led by a system message): the pruned list keeps the system
message first. -/
theorem C10_prune_invariants_witness :
    sysFirstB (prune_context ⟨2, 30⟩ [sysMsg, userMsg, userMsg, userMsg]
        true true) = true :=
  (C10_prune_invariants ⟨2, 30⟩ [sysMsg, userMsg, userMsg, userMsg]
      true true).2.1 (by decide)

end Jane
